import Mathlib

/-!
Verification of the zone-routing engine of the Tesla Proximity Chat server
(`server/index.js`): the in-memory user map, geohash zone indexing, the
`join` / `location-update` / `send-message` / `disconnect` socket handlers,
the presence broadcast, and the periodic eviction sweep.

The server state is the JavaScript `Map` `users`, modelled as an association
list that preserves insertion order (as a JS `Map` does). JavaScript numbers
that can be `NaN` are modelled by `JSNum`; ordinary numeric fields use `ℚ`.
Each socket handler is a pure function from the user map and the event
payload to the updated map together with the list of emitted deliveries.
-/

namespace TeslaProximityChat

attribute [local semireducible] Rat.add Rat.mul Rat.inv Rat.sub

/-- JavaScript `String.prototype.trim()`: strips whitespace from both
ends. (Defined over the character list so that it evaluates by kernel
reduction.) -/
def jsTrim (s : String) : String :=
  String.mk (((s.data.dropWhile Char.isWhitespace).reverse.dropWhile
    Char.isWhitespace).reverse)

/-- A JavaScript number: either an actual (rational) value or `NaN`. -/
inductive JSNum where
  | num : ℚ → JSNum
  | nan : JSNum
deriving DecidableEq

/-- JavaScript `<` on numbers: any comparison with `NaN` is false. -/
def JSNum.ltb : JSNum → JSNum → Bool
  | .num a, .num b => a < b
  | _, _ => false

/-- JavaScript `>` on numbers: any comparison with `NaN` is false. -/
def JSNum.gtb : JSNum → JSNum → Bool
  | .num a, .num b => a > b
  | _, _ => false

/-- JavaScript `speed || 0`: `0` and `NaN` are falsy and yield `0`. -/
def jsOrZero : JSNum → ℚ
  | .num q => if q = 0 then 0 else q
  | .nan => 0

/-- `BASE32_CODES` of the `ngeohash` package. -/
def BASE32_CODES : List Char := "0123456789bcdefghjkmnpqrstuvwxyz".toList

/-- The bit loop of `ngeohash.encode`: `bitsLeft` bits remain to be produced,
`bits` bits of the current character and its accumulated `hashValue` are
done, `evenBit` tells whether the next bit subdivides longitude (true) or
latitude (false), and the four bounds are the current cell. -/
def geohashLoop (latitude longitude : JSNum) :
    (bitsLeft bits hashValue : ℕ) → (evenBit : Bool) →
    (maxLat minLat maxLon minLon : ℚ) → List Char
  | 0, _, _, _, _, _, _, _ => []
  | n + 1, bits, hashValue, evenBit, maxLat, minLat, maxLon, minLon =>
    let step : ℕ → ℚ → ℚ → ℚ → ℚ → List Char := fun hv maxLat minLat maxLon minLon =>
      if bits + 1 = 5 then
        BASE32_CODES.getD hv ' ' ::
          geohashLoop latitude longitude n 0 0 (!evenBit) maxLat minLat maxLon minLon
      else
        geohashLoop latitude longitude n (bits + 1) hv (!evenBit) maxLat minLat maxLon minLon
    if evenBit then
      let mid := (maxLon + minLon) / 2
      if JSNum.gtb longitude (.num mid) then
        step (2 * hashValue + 1) maxLat minLat maxLon mid
      else
        step (2 * hashValue) maxLat minLat mid minLon
    else
      let mid := (maxLat + minLat) / 2
      if JSNum.gtb latitude (.num mid) then
        step (2 * hashValue + 1) maxLat mid maxLon minLon
      else
        step (2 * hashValue) mid minLat maxLon minLon

/-- `ngeohash.encode(latitude, longitude, numberOfChars)`: `5 * numberOfChars`
bits, alternately subdividing longitude and latitude starting from the cell
`[-90, 90] × [-180, 180]`, packed into base-32 characters. -/
def geohashEncode (latitude longitude : JSNum) (numberOfChars : ℕ) : String :=
  String.mk (geohashLoop latitude longitude (5 * numberOfChars) 0 0 true 90 (-90) 180 (-180))

/-- `GEOHASH_PRECISION = 6`. -/
def GEOHASH_PRECISION : ℕ := 6

/-- `SPEED_LOCK_THRESHOLD = 10` (mph). -/
def SPEED_LOCK_THRESHOLD : ℚ := 10

/-- `COORDINATE_TIMEOUT = 30000` (ms). -/
def COORDINATE_TIMEOUT : ℕ := 30000

/-- One entry of the `users` map:
`{ nickname, lat, lng, speed, geohash, timestamp }`. `lat`/`lng` are `null`
until the first location update; `speed` is always an actual number because
the server stores `speed || 0`. -/
structure User where
  nickname : String
  lat : Option JSNum
  lng : Option JSNum
  speed : ℚ
  geohash : Option String
  timestamp : ℕ
deriving DecidableEq

abbrev SocketId := String

/-- The `users` JavaScript `Map`, as an insertion-ordered association list. -/
abbrev UserMap := List (SocketId × User)

/-- `users.get(k)`. -/
def mapGet (m : UserMap) (k : SocketId) : Option User :=
  match m.find? (fun e => e.1 == k) with
  | some e => some e.2
  | none => none

/-- `users.set(k, v)`: replaces in place when the key is present (keeping its
position, as a JS `Map` does), otherwise appends at the end. -/
def mapSet (m : UserMap) (k : SocketId) (v : User) : UserMap :=
  match m with
  | [] => [(k, v)]
  | e :: rest => if e.1 == k then (k, v) :: rest else e :: mapSet rest k v

/-- `users.delete(k)`. -/
def mapDelete (m : UserMap) (k : SocketId) : UserMap :=
  m.filter (fun e => e.1 != k)

/-- Public projection of a user sent in `nearby-users` payloads. -/
structure NearbyUser where
  socketId : SocketId
  nickname : String
  lat : Option JSNum
  lng : Option JSNum
  speed : ℚ
deriving DecidableEq

/-- Payload of a `new-message` event. -/
structure MessageData where
  socketId : SocketId
  nickname : String
  message : String
  timestamp : ℕ
  geohash : String
deriving DecidableEq

/-- Outbound server events. -/
inductive ServerEvent where
  | errorEvent (message : String)
  | joined (socketId : SocketId)
  | zoneChanged (geohash : String)
  | nearbyUsers (users : List NearbyUser)
  | newMessage (data : MessageData)
  | userLeft (socketId : SocketId) (nickname : String)
deriving DecidableEq

/-- One emission: `io.to(recipient).emit` / `socket.emit` target one socket,
`io.emit` broadcasts to every connected socket. -/
inductive Delivery where
  | toSocket (recipient : SocketId) (event : ServerEvent)
  | broadcast (event : ServerEvent)
deriving DecidableEq

/-- The list built inside `broadcastNearbyUsers`: users of the zone that have
a position, projected to their public view, in map (= insertion) order. -/
def nearbySnapshot (m : UserMap) (zone : String) : List NearbyUser :=
  (m.filter (fun e => e.2.geohash == some zone && e.2.lat != none)).map
    (fun e => { socketId := e.1
                nickname := e.2.nickname
                lat := e.2.lat
                lng := e.2.lng
                speed := e.2.speed })

/-- `broadcastNearbyUsers(geohashZone)`: sends the snapshot to every user
whose `geohash` equals the zone. -/
def broadcastNearbyUsers (m : UserMap) (zone : String) : List Delivery :=
  (m.filter (fun e => e.2.geohash == some zone)).map
    (fun e => Delivery.toSocket e.1 (ServerEvent.nearbyUsers (nearbySnapshot m zone)))

/-- `socket.on('join')`: rejects a nickname that is empty after trimming,
otherwise stores a fresh user with no position, speed 0 and the current
timestamp, and acknowledges with `joined`. -/
def handleJoin (m : UserMap) (sid : SocketId) (nickname : String) (now : ℕ) :
    UserMap × List Delivery :=
  if (jsTrim nickname).length == 0 then
    (m, [Delivery.toSocket sid (ServerEvent.errorEvent "Nickname is required")])
  else
    let trimmedNickname := jsTrim nickname
    (mapSet m sid { nickname := trimmedNickname
                    lat := none
                    lng := none
                    speed := 0
                    geohash := none
                    timestamp := now },
     [Delivery.toSocket sid (ServerEvent.joined sid)])

/-- The coordinate validation of `socket.on('location-update')`:
`lat < -90 || lat > 90 || lng < -180 || lng > 180` rejects (the `typeof`
checks hold for every `JSNum`). Comparisons with `NaN` are false. -/
def validCoordinates (lat lng : JSNum) : Bool :=
  !(JSNum.ltb lat (.num (-90)) || JSNum.gtb lat (.num 90) ||
    JSNum.ltb lng (.num (-180)) || JSNum.gtb lng (.num 180))

/-- `socket.on('location-update')`: requires a joined user and valid
coordinates, then overwrites position, speed (`speed || 0`), geohash and
timestamp, emits `zone-changed` to the sender when moving between two
distinct non-null zones, and broadcasts the new zone's user list. -/
def handleLocationUpdate (m : UserMap) (sid : SocketId) (lat lng speed : JSNum)
    (now : ℕ) : UserMap × List Delivery :=
  match mapGet m sid with
  | none => (m, [Delivery.toSocket sid (ServerEvent.errorEvent "You must join first")])
  | some user =>
    if !validCoordinates lat lng then
      (m, [Delivery.toSocket sid (ServerEvent.errorEvent "Invalid coordinates")])
    else
      let hash := geohashEncode lat lng GEOHASH_PRECISION
      let previousHash := user.geohash
      let updated : User := { user with
        lat := some lat
        lng := some lng
        speed := jsOrZero speed
        geohash := some hash
        timestamp := now }
      let m2 := mapSet m sid updated
      let zoneEvents : List Delivery :=
        match previousHash with
        | some p => if p != hash then [Delivery.toSocket sid (ServerEvent.zoneChanged hash)]
                    else []
        | none => []
      (m2, zoneEvents ++ broadcastNearbyUsers m2 hash)

/-- JavaScript `Number.prototype.toFixed(1)` on a rational: the nearest
one-decimal value, ties resolved to the larger candidate as ECMA-262
prescribes. -/
def toFixed1 (q : ℚ) : String :=
  let a : ℕ := q.num.natAbs
  let d : ℕ := q.den
  let scaled : ℕ :=
    if 0 ≤ q.num then (20 * a + d) / (2 * d) else (20 * a + d - 1) / (2 * d)
  (if q.num < 0 then "-" else "") ++ toString (scaled / 10) ++ "." ++
    toString (scaled % 10)

/-- `socket.on('send-message')`. Checks, in order: the user exists and has a
geohash (else "You must share your location first"); the stored speed does
not exceed `SPEED_LOCK_THRESHOLD` (else the speed-lock error carrying the
current speed); the message is non-empty after trimming (else
"Invalid message"). On success, text longer than 5 characters goes through
the external profanity filter `filterClean` (`none` models a thrown
exception, falling back to the original text), and the message record is
sent to every other user of the zone plus an echo to the author. The user
map is never modified. -/
def handleSendMessage (filterClean : String → Option String) (m : UserMap)
    (sid : SocketId) (message : String) (now : ℕ) : UserMap × List Delivery :=
  match mapGet m sid with
  | none =>
    (m, [Delivery.toSocket sid (ServerEvent.errorEvent "You must share your location first")])
  | some user =>
    match user.geohash with
    | none =>
      (m, [Delivery.toSocket sid (ServerEvent.errorEvent "You must share your location first")])
    | some zone =>
      if user.speed > SPEED_LOCK_THRESHOLD then
        (m, [Delivery.toSocket sid (ServerEvent.errorEvent
          ("Messaging disabled while driving (speed: " ++ toFixed1 user.speed ++ " mph)"))])
      else if (jsTrim message).length == 0 then
        (m, [Delivery.toSocket sid (ServerEvent.errorEvent "Invalid message")])
      else
        let filteredMessage :=
          if message.length > 5 then (filterClean message).getD message else message
        let messageData : MessageData :=
          { socketId := sid
            nickname := user.nickname
            message := filteredMessage
            timestamp := now
            geohash := zone }
        let others :=
          (m.filter (fun e => e.2.geohash == some zone && e.1 != sid)).map
            (fun e => Delivery.toSocket e.1 (ServerEvent.newMessage messageData))
        (m, others ++ [Delivery.toSocket sid (ServerEvent.newMessage messageData)])

/-- `socket.on('disconnect')`: removes the user and, when it held a geohash,
broadcasts the remaining user list of that zone. No `user-left` is emitted
here. -/
def handleDisconnect (m : UserMap) (sid : SocketId) : UserMap × List Delivery :=
  match mapGet m sid with
  | none => (m, [])
  | some user =>
    let m2 := mapDelete m sid
    match user.geohash with
    | some zone => (m2, broadcastNearbyUsers m2 zone)
    | none => (m2, [])

/-- One tick of the `setInterval` eviction sweep: every user whose timestamp
is older than `COORDINATE_TIMEOUT` is deleted and a `user-left` with its
socket id and nickname is broadcast (`io.emit`) to all connected sockets. -/
def evictionSweep (m : UserMap) (now : ℕ) : UserMap × List Delivery :=
  match m with
  | [] => ([], [])
  | (sid, user) :: rest =>
    let r := evictionSweep rest now
    if now - user.timestamp > COORDINATE_TIMEOUT then
      (r.1, Delivery.broadcast (ServerEvent.userLeft sid user.nickname) :: r.2)
    else ((sid, user) :: r.1, r.2)

/-- The events a given socket receives from a list of deliveries, given the
list `conns` of all connected sockets (a broadcast reaches exactly those). -/
def deliveriesTo (conns : List SocketId) (sid : SocketId) (ds : List Delivery) :
    List ServerEvent :=
  ds.filterMap fun d =>
    match d with
    | .toSocket r e => if r == sid then some e else none
    | .broadcast e => if conns.contains sid then some e else none

/-- How many deliveries matching `p` the socket `sid` receives. -/
def countEventsTo (conns : List SocketId) (sid : SocketId) (ds : List Delivery)
    (p : ServerEvent → Bool) : ℕ :=
  (deliveriesTo conns sid ds).countP p

def ServerEvent.isNewMessage : ServerEvent → Bool
  | .newMessage _ => true
  | _ => false

def ServerEvent.isNearbyUsers : ServerEvent → Bool
  | .nearbyUsers _ => true
  | _ => false

def ServerEvent.isUserLeft : ServerEvent → Bool
  | .userLeft _ _ => true
  | _ => false

def ServerEvent.isErrorEvent : ServerEvent → Bool
  | .errorEvent _ => true
  | _ => false

/-- A `user-left` event announcing the departure of socket `sid`. -/
def isUserLeftFrom (sid : SocketId) : ServerEvent → Bool
  | .userLeft s _ => s == sid
  | _ => false

/-- Whether a delivery carries a `user-left` event (to anyone). -/
def isUserLeftDelivery : Delivery → Bool
  | .toSocket _ e => e.isUserLeft
  | .broadcast e => e.isUserLeft

/-- Whether a delivery carries an `error` event (to anyone). -/
def isErrorDelivery : Delivery → Bool
  | .toSocket _ e => e.isErrorEvent
  | .broadcast e => e.isErrorEvent

/-- A trivial profanity filter used to instantiate the external collaborator
in concrete scenarios: it cleans every text to itself. -/
def idFilter : String → Option String := fun s => some s

/-- The zone of the origin: `geohashEncode 0 0 6` evaluates to this key. -/
def zone0 : String := "7zzzzz"

def uAlice : User :=
  ⟨"Alice", some (.num 0), some (.num 0), 0, some zone0, 0⟩

def uBob : User :=
  ⟨"Bob", some (.num 0), some (.num 0), 0, some zone0, 0⟩

def uCarol : User :=
  ⟨"Carol", some (.num (757/20)), some (.num (-1221/10)), 0, some "9q9pmd", 0⟩

def uFast : User :=
  ⟨"Fast", none, none, 50, none, 0⟩

def uTen : User :=
  ⟨"Ten", some (.num 0), some (.num 0), 10, some zone0, 0⟩

def uTenPointOne : User :=
  ⟨"TenOne", some (.num 0), some (.num 0), 101/10, some zone0, 0⟩

def uStale : User :=
  ⟨"Stale", some (.num 0), some (.num 0), 0, some zone0, 0⟩

def uFresh : User :=
  ⟨"Fresh", some (.num (757/20)), some (.num (-1221/10)), 0, some "9q9pmd", 39000⟩

def uJoinedOnly : User :=
  ⟨"Al", none, none, 0, none, 0⟩

def uMoveA : User :=
  ⟨"Mover", some (.num 5), some (.num 5), 0, some "aaaaaa", 0⟩

def uStayB : User :=
  ⟨"Stayer", some (.num 5), some (.num 5), 0, some "aaaaaa", 0⟩

def mC2 : UserMap := [("A", uAlice), ("B", uBob), ("C", uCarol)]

def mSweep : UserMap := [("A", uStale), ("B", uFresh)]

def mFast : UserMap := [("A", uFast)]

def mSpeed10 : UserMap := [("A", uTen), ("B", uBob)]

def mSpeed101 : UserMap := [("A", uTenPointOne), ("B", uBob)]

def mJoined : UserMap := [("A", uJoinedOnly)]

def mC10 : UserMap :=
  [("A", uMoveA), ("B", uStayB), ("C", uAlice), ("D", uCarol), ("E", uFast)]

/-- State after `join` of "A" at time 0 (empty store before). -/
def mAfterJoin : UserMap := (handleJoin [] "A" "Al" 0).1

/-- State after "A" then shares location (0, 0) at time 0. -/
def mAfterLocate : UserMap :=
  (handleLocationUpdate mAfterJoin "A" (.num 0) (.num 0) (.num 0) 0).1

/-- State after "A" then sends a message at time 20000. -/
def mAfterSend : UserMap :=
  (handleSendMessage idFilter mAfterLocate "A" "hi" 20000).1
theorem deliveriesTo_nil (conns : List SocketId) (sid : SocketId) :
    deliveriesTo conns sid [] = [] := rfl

theorem deliveriesTo_cons_toSocket (conns : List SocketId) (sid r : SocketId)
    (ev : ServerEvent) (ds : List Delivery) :
    deliveriesTo conns sid (Delivery.toSocket r ev :: ds)
      = if r == sid then ev :: deliveriesTo conns sid ds
        else deliveriesTo conns sid ds := by
  by_cases h : r = sid <;> simp [deliveriesTo, List.filterMap_cons, h]

theorem deliveriesTo_cons_broadcast (conns : List SocketId) (sid : SocketId)
    (ev : ServerEvent) (ds : List Delivery) :
    deliveriesTo conns sid (Delivery.broadcast ev :: ds)
      = if conns.contains sid then ev :: deliveriesTo conns sid ds
        else deliveriesTo conns sid ds := by
  by_cases h : sid ∈ conns <;> simp [deliveriesTo, List.filterMap_cons, h]

theorem deliveriesTo_append (conns : List SocketId) (sid : SocketId)
    (a b : List Delivery) :
    deliveriesTo conns sid (a ++ b)
      = deliveriesTo conns sid a ++ deliveriesTo conns sid b := by
  simp [deliveriesTo]

theorem countEventsTo_append (conns : List SocketId) (sid : SocketId)
    (a b : List Delivery) (p : ServerEvent → Bool) :
    countEventsTo conns sid (a ++ b) p
      = countEventsTo conns sid a p + countEventsTo conns sid b p := by
  simp [countEventsTo, deliveriesTo_append]

theorem deliveriesTo_toSocketMap (conns : List SocketId) (sid : SocketId)
    (l : List (SocketId × User)) (f : SocketId × User → ServerEvent) :
    deliveriesTo conns sid (l.map (fun e => Delivery.toSocket e.1 (f e)))
      = (l.filter (fun e => e.1 == sid)).map f := by
  induction l with
  | nil => rfl
  | cons e t ih =>
    rw [List.map_cons, deliveriesTo_cons_toSocket, List.filter_cons]
    cases h : (e.1 == sid) <;> simp [h, ih]

theorem deliveriesTo_broadcastMap (conns : List SocketId) (sid : SocketId)
    (h : conns.contains sid = true)
    (l : List (SocketId × User)) (f : SocketId × User → ServerEvent) :
    deliveriesTo conns sid (l.map (fun e => Delivery.broadcast (f e))) = l.map f := by
  induction l with
  | nil => rfl
  | cons e t ih =>
    rw [List.map_cons, deliveriesTo_cons_broadcast]
    rw [if_pos (by simpa using h), ih, List.map_cons]

theorem countEventsTo_toSocketMap (conns : List SocketId) (sid : SocketId)
    (l : List (SocketId × User)) (f : SocketId × User → ServerEvent)
    (p : ServerEvent → Bool) :
    countEventsTo conns sid (l.map (fun e => Delivery.toSocket e.1 (f e))) p
      = l.countP (fun e => e.1 == sid && p (f e)) := by
  rw [countEventsTo, deliveriesTo_toSocketMap, List.countP_map, List.countP_filter]
  apply List.countP_congr
  intro e _
  cases h : (e.1 == sid) <;> simp [h, Function.comp]

theorem countEventsTo_broadcastMap (conns : List SocketId) (sid : SocketId)
    (h : conns.contains sid = true)
    (l : List (SocketId × User)) (f : SocketId × User → ServerEvent)
    (p : ServerEvent → Bool) :
    countEventsTo conns sid (l.map (fun e => Delivery.broadcast (f e))) p
      = l.countP (fun e => p (f e)) := by
  rw [countEventsTo, deliveriesTo_broadcastMap conns sid h, List.countP_map]
  rfl

theorem countEventsTo_singleton_toSocket (conns : List SocketId) (sid r : SocketId)
    (ev : ServerEvent) (p : ServerEvent → Bool) :
    countEventsTo conns sid [Delivery.toSocket r ev] p
      = if r == sid then (if p ev then 1 else 0) else 0 := by
  cases h : (r == sid) <;>
    simp [countEventsTo, deliveriesTo_cons_toSocket, h, deliveriesTo_nil,
      List.countP_cons]

theorem countP_key (m : UserMap) (hnd : (m.map Prod.fst).Nodup) (k : SocketId)
    (u : User) (hmem : (k, u) ∈ m) (r : SocketId × User → Bool) :
    m.countP (fun e => e.1 == k && r e) = if r (k, u) then 1 else 0 := by
  induction m with
  | nil => cases hmem
  | cons e t ih =>
    rw [List.map_cons, List.nodup_cons] at hnd
    rw [List.countP_cons]
    rcases List.mem_cons.mp hmem with heq | hmem2
    · cases heq
      have hz : t.countP (fun x => x.1 == k && r x) = 0 := by
        rw [List.countP_eq_zero]
        intro a ha
        have hak : a.1 ≠ k := by
          intro hak
          apply hnd.1
          have hmm : a.1 ∈ t.map Prod.fst := List.mem_map_of_mem Prod.fst ha
          simpa [hak] using hmm
        simp [hak]
      rw [hz]
      simp
    · have hek : e.1 ≠ k := by
        intro hek
        apply hnd.1
        have hmm : (k, u).1 ∈ t.map Prod.fst := List.mem_map_of_mem Prod.fst hmem2
        simpa [hek] using hmm
      rw [ih hnd.2 hmem2]
      simp [hek]

theorem mapGet_cons (a : SocketId) (b : User) (t : UserMap) (k : SocketId) :
    mapGet ((a, b) :: t) k = if a == k then some b else mapGet t k := by
  cases h : (a == k) <;> simp [mapGet, List.find?, h]

theorem mapGet_mem (m : UserMap) (k : SocketId) (u : User)
    (h : mapGet m k = some u) : (k, u) ∈ m := by
  unfold mapGet at h
  cases hf : m.find? (fun e => e.1 == k) with
  | none => rw [hf] at h; cases h
  | some e =>
    rw [hf] at h
    cases h
    have hmem := List.mem_of_find?_eq_some hf
    have hp := List.find?_some hf
    simp only [beq_iff_eq] at hp
    have : e = (k, e.2) := by
      rw [← hp]
    rw [← this]
    exact hmem

theorem mapGet_eq_some_of_mem (m : UserMap) (hnd : (m.map Prod.fst).Nodup)
    (k : SocketId) (u : User) (hmem : (k, u) ∈ m) : mapGet m k = some u := by
  induction m with
  | nil => cases hmem
  | cons e t ih =>
    obtain ⟨a, b⟩ := e
    rw [List.map_cons, List.nodup_cons] at hnd
    rw [mapGet_cons]
    rcases List.mem_cons.mp hmem with heq | hmem2
    · cases heq
      simp
    · have hak : a ≠ k := by
        intro hak
        apply hnd.1
        have hmm : (k, u).1 ∈ t.map Prod.fst := List.mem_map_of_mem Prod.fst hmem2
        simpa [hak] using hmm
      rw [if_neg (by simpa using hak)]
      exact ih hnd.2 hmem2

theorem nodupKeys_eq (m : UserMap) (hnd : (m.map Prod.fst).Nodup)
    {k : SocketId} {a b : User} (ha : (k, a) ∈ m) (hb : (k, b) ∈ m) : a = b := by
  have h1 := mapGet_eq_some_of_mem m hnd k a ha
  have h2 := mapGet_eq_some_of_mem m hnd k b hb
  rw [h1] at h2
  exact (Option.some.injEq _ _).mp h2

theorem mapSet_cons (a : SocketId) (b : User) (t : UserMap) (k : SocketId)
    (v : User) :
    mapSet ((a, b) :: t) k v
      = if a == k then (k, v) :: t else (a, b) :: mapSet t k v := by
  cases h : (a == k) <;> simp [mapSet, h]

theorem mapGet_mapSet (m : UserMap) (k : SocketId) (v : User) :
    mapGet (mapSet m k v) k = some v := by
  induction m with
  | nil => simp [mapSet, mapGet_cons]
  | cons e t ih =>
    obtain ⟨a, b⟩ := e
    rw [mapSet_cons]
    by_cases h : a = k
    · rw [if_pos (by simpa using h), mapGet_cons]
      simp
    · rw [if_neg (by simpa using h), mapGet_cons, if_neg (by simpa using h)]
      exact ih

theorem mapSet_map_fst_of_mem (m : UserMap) (k : SocketId) (v : User)
    (h : k ∈ m.map Prod.fst) : (mapSet m k v).map Prod.fst = m.map Prod.fst := by
  induction m with
  | nil => cases h
  | cons e t ih =>
    obtain ⟨a, b⟩ := e
    rw [mapSet_cons]
    by_cases hk : a = k
    · rw [if_pos (by simpa using hk)]
      simp [hk]
    · rw [if_neg (by simpa using hk)]
      rw [List.map_cons, List.mem_cons] at h
      rcases h with h1 | h2
      · exact absurd h1.symm hk
      · simp [ih h2]

theorem evictionSweep_fst (m : UserMap) (now : ℕ) :
    (evictionSweep m now).1
      = m.filter (fun e => !(decide (now - e.2.timestamp > COORDINATE_TIMEOUT))) := by
  induction m with
  | nil => rfl
  | cons e t ih =>
    obtain ⟨a, b⟩ := e
    by_cases h : now - b.timestamp > COORDINATE_TIMEOUT
    · simp [evictionSweep, List.filter_cons, h, ih]
    · simp [evictionSweep, List.filter_cons, h, ih]

theorem evictionSweep_snd (m : UserMap) (now : ℕ) :
    (evictionSweep m now).2
      = (m.filter (fun e => decide (now - e.2.timestamp > COORDINATE_TIMEOUT))).map
          (fun e => Delivery.broadcast (ServerEvent.userLeft e.1 e.2.nickname)) := by
  induction m with
  | nil => rfl
  | cons e t ih =>
    obtain ⟨a, b⟩ := e
    by_cases h : now - b.timestamp > COORDINATE_TIMEOUT
    · simp [evictionSweep, List.filter_cons, h, ih]
    · simp [evictionSweep, List.filter_cons, h, ih]

/-- C1: on a sweep tick every session older than the timeout is removed, and
for each removed session — whether or not it held a zone — exactly one
`user-left` broadcast is emitted, which every connected socket receives,
including sockets outside the removed session's former zone; the sweep emits
no `nearby-users` refresh at all. -/
theorem evictionSweep_spec (m : UserMap) (now : ℕ) (conns : List SocketId)
    (sid2 : SocketId) (hconn : sid2 ∈ conns) (hnd : (m.map Prod.fst).Nodup) :
    (evictionSweep m now).1
        = m.filter (fun e => !(decide (now - e.2.timestamp > COORDINATE_TIMEOUT)))
    ∧ (∀ sid u, (sid, u) ∈ m → now - u.timestamp > COORDINATE_TIMEOUT →
        countEventsTo conns sid2 (evictionSweep m now).2 (isUserLeftFrom sid) = 1)
    ∧ countEventsTo conns sid2 (evictionSweep m now).2 ServerEvent.isNearbyUsers = 0 := by
  have hconn2 : conns.contains sid2 = true := by simpa using hconn
  refine ⟨evictionSweep_fst m now, ?_, ?_⟩
  · intro sid u hmem hstale
    rw [evictionSweep_snd, countEventsTo_broadcastMap conns sid2 hconn2]
    have hcongr :
        (m.filter (fun e => decide (now - e.2.timestamp > COORDINATE_TIMEOUT))).countP
            (fun e => isUserLeftFrom sid (ServerEvent.userLeft e.1 e.2.nickname))
          = (m.filter
              (fun e => decide (now - e.2.timestamp > COORDINATE_TIMEOUT))).countP
            (fun e => e.1 == sid) := by
      apply List.countP_congr
      intro x _
      simp [isUserLeftFrom]
    rw [hcongr, List.countP_filter]
    rw [countP_key m hnd sid u hmem
      (fun e => decide (now - e.2.timestamp > COORDINATE_TIMEOUT))]
    simp [hstale]
  · rw [evictionSweep_snd, countEventsTo_broadcastMap conns sid2 hconn2]
    rw [List.countP_eq_zero]
    intro e _
    simp [ServerEvent.isNearbyUsers]

theorem evictionSweep_spec_witness :
    (evictionSweep mSweep 40000).1 = [("B", uFresh)]
    ∧ countEventsTo ["A", "B"] "B" (evictionSweep mSweep 40000).2
        (isUserLeftFrom "A") = 1
    ∧ countEventsTo ["A", "B"] "B" (evictionSweep mSweep 40000).2
        ServerEvent.isNearbyUsers = 0 := by
  have h := evictionSweep_spec mSweep 40000 ["A", "B"] "B" (by decide) (by decide)
  exact ⟨h.1.trans (by decide), h.2.1 "A" uStale (by decide) (by decide), h.2.2⟩

theorem evictionSweep_claim_counterexample :
    (mapGet mSweep "B").map User.geohash = some (some "9q9pmd")
    ∧ (mapGet mSweep "A").map User.geohash = some (some zone0)
    ∧ countEventsTo ["A", "B"] "B" (evictionSweep mSweep 40000).2
        (isUserLeftFrom "A") = 1
    ∧ countEventsTo ["A", "B"] "B" (evictionSweep mSweep 40000).2
        ServerEvent.isNearbyUsers = 0
    ∧ countEventsTo ["A", "B"] "A" (evictionSweep mSweep 40000).2
        ServerEvent.isNearbyUsers = 0 := by
  refine ⟨by decide, by decide, by decide, by decide, by decide⟩

/-- C3 (amended): an explicit disconnect of a session holding a zone removes
it from the store and broadcasts a `nearby-users` refresh of the former zone
to its remaining members; unlike the eviction path it emits no `user-left`
event at all. -/
theorem disconnect_located (m : UserMap) (sid : SocketId) (user : User)
    (zone : String) (hget : mapGet m sid = some user)
    (hzone : user.geohash = some zone) :
    handleDisconnect m sid
      = (mapDelete m sid, broadcastNearbyUsers (mapDelete m sid) zone)
    ∧ (∀ conns sid2, countEventsTo conns sid2 (handleDisconnect m sid).2
        ServerEvent.isUserLeft = 0) := by
  have heq : handleDisconnect m sid
      = (mapDelete m sid, broadcastNearbyUsers (mapDelete m sid) zone) := by
    unfold handleDisconnect
    simp only [hget, hzone]
  refine ⟨heq, ?_⟩
  intro conns sid2
  rw [heq, broadcastNearbyUsers, countEventsTo_toSocketMap]
  rw [List.countP_eq_zero]
  intro e _
  simp [ServerEvent.isUserLeft]

theorem disconnect_located_witness :
    handleDisconnect mC2 "A"
      = (mapDelete mC2 "A", broadcastNearbyUsers (mapDelete mC2 "A") zone0)
    ∧ countEventsTo ["A", "B", "C"] "B" (handleDisconnect mC2 "A").2
        ServerEvent.isUserLeft = 0 := by
  have h := disconnect_located mC2 "A" uAlice zone0 (by decide) (by decide)
  exact ⟨h.1, h.2 ["A", "B", "C"] "B"⟩

theorem disconnect_claim_counterexample :
    (mapGet mC2 "A").map User.geohash = some (some zone0)
    ∧ (handleDisconnect mC2 "A").2.countP isUserLeftDelivery = 0
    ∧ (handleDisconnect mC2 "A").2.length = 1 := by
  refine ⟨by decide, by decide, by decide⟩

/-- C4 (amended): `join` fails exactly when the nickname is empty after
trimming; no upper length bound is enforced. On success it stores a session
with the trimmed nickname, no position, speed 0, no zone, and `lastSeen`
equal to the current time. -/
theorem join_spec (m : UserMap) (sid : SocketId) (nickname : String) (now : ℕ) :
    ((jsTrim nickname).length = 0 →
      handleJoin m sid nickname now
        = (m, [Delivery.toSocket sid (ServerEvent.errorEvent "Nickname is required")]))
    ∧ ((jsTrim nickname).length ≠ 0 →
      handleJoin m sid nickname now
        = (mapSet m sid ⟨jsTrim nickname, none, none, 0, none, now⟩,
           [Delivery.toSocket sid (ServerEvent.joined sid)])) := by
  constructor
  · intro h
    unfold handleJoin
    simp [h]
  · intro h
    unfold handleJoin
    simp [h]

theorem join_spec_witness :
    handleJoin [] "A" "   " 5
      = ([], [Delivery.toSocket "A" (ServerEvent.errorEvent "Nickname is required")])
    ∧ handleJoin [] "A" " Bob " 5
      = ([("A", ⟨"Bob", none, none, 0, none, 5⟩)],
         [Delivery.toSocket "A" (ServerEvent.joined "A")]) := by
  constructor
  · exact (join_spec [] "A" "   " 5).1 (by decide)
  · exact ((join_spec [] "A" " Bob " 5).2 (by decide)).trans (by decide)

theorem join_length_counterexample :
    ("aaaaaaaaaaaaaaaaaaaaa" : String).length = 21
    ∧ handleJoin [] "A" "aaaaaaaaaaaaaaaaaaaaa" 5
        = ([("A", ⟨"aaaaaaaaaaaaaaaaaaaaa", none, none, 0, none, 5⟩)],
           [Delivery.toSocket "A" (ServerEvent.joined "A")]) := by
  refine ⟨by decide, by decide⟩

theorem handleLocationUpdate_success (m : UserMap) (sid : SocketId)
    (lat lng speed : JSNum) (now : ℕ) (user : User)
    (hget : mapGet m sid = some user) (hvalid : validCoordinates lat lng = true) :
    handleLocationUpdate m sid lat lng speed now
      = (mapSet m sid ⟨user.nickname, some lat, some lng, jsOrZero speed,
            some (geohashEncode lat lng GEOHASH_PRECISION), now⟩,
         (match user.geohash with
          | some p =>
            if p != geohashEncode lat lng GEOHASH_PRECISION then
              [Delivery.toSocket sid (ServerEvent.zoneChanged
                (geohashEncode lat lng GEOHASH_PRECISION))]
            else []
          | none => [])
          ++ broadcastNearbyUsers
              (mapSet m sid ⟨user.nickname, some lat, some lng, jsOrZero speed,
                some (geohashEncode lat lng GEOHASH_PRECISION), now⟩)
              (geohashEncode lat lng GEOHASH_PRECISION)) := by
  unfold handleLocationUpdate
  rw [hget]
  simp [hvalid]

/-- C5 (amended): `location-update` fails with "You must join first" when no
session exists, and with "Invalid coordinates" when the latitude or longitude
is out of range; both failures leave the store unchanged. Speed is never
validated: on success any speed value is accepted and stored as `speed || 0`
(negative values verbatim, `NaN` coerced to 0). -/
theorem locationUpdate_spec (m : UserMap) (sid : SocketId)
    (lat lng speed : JSNum) (now : ℕ) :
    (mapGet m sid = none →
      handleLocationUpdate m sid lat lng speed now
        = (m, [Delivery.toSocket sid (ServerEvent.errorEvent "You must join first")]))
    ∧ (∀ user, mapGet m sid = some user → validCoordinates lat lng = false →
      handleLocationUpdate m sid lat lng speed now
        = (m, [Delivery.toSocket sid (ServerEvent.errorEvent "Invalid coordinates")]))
    ∧ (∀ user, mapGet m sid = some user → validCoordinates lat lng = true →
      (handleLocationUpdate m sid lat lng speed now).1
        = mapSet m sid ⟨user.nickname, some lat, some lng, jsOrZero speed,
            some (geohashEncode lat lng GEOHASH_PRECISION), now⟩) := by
  refine ⟨?_, ?_, ?_⟩
  · intro h
    unfold handleLocationUpdate
    rw [h]
  · intro user hget hvalid
    unfold handleLocationUpdate
    rw [hget]
    simp [hvalid]
  · intro user hget hvalid
    rw [handleLocationUpdate_success m sid lat lng speed now user hget hvalid]

theorem locationUpdate_spec_witness :
    handleLocationUpdate [] "A" (.num 0) (.num 0) (.num 0) 7
      = ([], [Delivery.toSocket "A" (ServerEvent.errorEvent "You must join first")])
    ∧ handleLocationUpdate mJoined "A" (.num 91) (.num 0) (.num 0) 7
      = (mJoined, [Delivery.toSocket "A" (ServerEvent.errorEvent "Invalid coordinates")])
    ∧ (handleLocationUpdate mJoined "A" (.num 0) (.num 0) (.num (-5)) 7).1
      = [("A", ⟨"Al", some (.num 0), some (.num 0), -5, some zone0, 7⟩)] := by
  refine ⟨?_, ?_, ?_⟩
  · exact (locationUpdate_spec [] "A" (.num 0) (.num 0) (.num 0) 7).1 (by decide)
  · exact (locationUpdate_spec mJoined "A" (.num 91) (.num 0) (.num 0) 7).2.1
      uJoinedOnly (by decide) (by decide)
  · exact ((locationUpdate_spec mJoined "A" (.num 0) (.num 0) (.num (-5)) 7).2.2
      uJoinedOnly (by decide) (by decide)).trans (by decide)

theorem locationUpdate_speed_counterexample :
    (handleLocationUpdate mJoined "A" (.num 0) (.num 0) (.num (-5)) 7).2.countP
        isErrorDelivery = 0
    ∧ (mapGet (handleLocationUpdate mJoined "A" (.num 0) (.num 0) (.num (-5)) 7).1
        "A").map User.speed = some (-5)
    ∧ (mapGet (handleLocationUpdate mJoined "A" (.num 0) (.num 0) JSNum.nan 7).1
        "A").map User.speed = some 0 := by
  refine ⟨by decide, by decide, by decide⟩

theorem handleSendMessage_success (fc : String → Option String) (m : UserMap)
    (sid : SocketId) (msg : String) (now : ℕ) (user : User) (zone : String)
    (hget : mapGet m sid = some user) (hzone : user.geohash = some zone)
    (hspeed : ¬ user.speed > SPEED_LOCK_THRESHOLD)
    (hmsg : (jsTrim msg).length ≠ 0) :
    handleSendMessage fc m sid msg now
      = (m, (m.filter (fun e => e.2.geohash == some zone && e.1 != sid)).map
              (fun e => Delivery.toSocket e.1 (ServerEvent.newMessage
                ⟨sid, user.nickname,
                 if msg.length > 5 then (fc msg).getD msg else msg, now, zone⟩))
            ++ [Delivery.toSocket sid (ServerEvent.newMessage
                ⟨sid, user.nickname,
                 if msg.length > 5 then (fc msg).getD msg else msg, now, zone⟩)]) := by
  unfold handleSendMessage
  simp only [hget, hzone]
  rw [if_neg hspeed]
  have hb : ((jsTrim msg).length == 0) = false := by
    simpa using hmsg
  simp [hb]

/-- C2: a successful send from session A holding zone Z delivers the message
record exactly once to every other session whose current zone is Z, exactly
once back to A itself (the echo), and zero times to every session whose zone
differs from Z or is absent. -/
theorem sendMessage_delivery (fc : String → Option String) (m : UserMap)
    (sid : SocketId) (msg : String) (now : ℕ) (user : User) (zone : String)
    (hnd : (m.map Prod.fst).Nodup)
    (hget : mapGet m sid = some user)
    (hzone : user.geohash = some zone)
    (hspeed : ¬ user.speed > SPEED_LOCK_THRESHOLD)
    (hmsg : (jsTrim msg).length ≠ 0) :
    (∀ sid2 u2, (sid2, u2) ∈ m → sid2 ≠ sid → u2.geohash = some zone →
        countEventsTo (m.map Prod.fst) sid2 (handleSendMessage fc m sid msg now).2
          ServerEvent.isNewMessage = 1)
    ∧ countEventsTo (m.map Prod.fst) sid (handleSendMessage fc m sid msg now).2
        ServerEvent.isNewMessage = 1
    ∧ (∀ sid2 u2, (sid2, u2) ∈ m → u2.geohash ≠ some zone →
        countEventsTo (m.map Prod.fst) sid2 (handleSendMessage fc m sid msg now).2
          ServerEvent.isNewMessage = 0) := by
  have hsucc := handleSendMessage_success fc m sid msg now user zone hget hzone
    hspeed hmsg
  have h2 : (handleSendMessage fc m sid msg now).2
      = (m.filter (fun e => e.2.geohash == some zone && e.1 != sid)).map
          (fun e => Delivery.toSocket e.1 (ServerEvent.newMessage
            ⟨sid, user.nickname,
             if msg.length > 5 then (fc msg).getD msg else msg, now, zone⟩))
        ++ [Delivery.toSocket sid (ServerEvent.newMessage
            ⟨sid, user.nickname,
             if msg.length > 5 then (fc msg).getD msg else msg, now, zone⟩)] := by
    rw [hsucc]
  have hcount : ∀ sid2 : SocketId,
      countEventsTo (m.map Prod.fst) sid2 (handleSendMessage fc m sid msg now).2
          ServerEvent.isNewMessage
        = m.countP (fun e => e.1 == sid2 && (e.2.geohash == some zone && e.1 != sid))
          + (if sid == sid2 then 1 else 0) := by
    intro sid2
    rw [h2, countEventsTo_append, countEventsTo_toSocketMap,
      countEventsTo_singleton_toSocket]
    have hc : ((m.filter (fun e => e.2.geohash == some zone && e.1 != sid)).countP
          (fun e => e.1 == sid2 && ServerEvent.isNewMessage (ServerEvent.newMessage
            ⟨sid, user.nickname,
             if msg.length > 5 then (fc msg).getD msg else msg, now, zone⟩)))
        = m.countP (fun e => e.1 == sid2 && (e.2.geohash == some zone && e.1 != sid)) := by
      rw [List.countP_filter]
      apply List.countP_congr
      intro x _
      cases h : (x.1 == sid2) <;> simp [h, ServerEvent.isNewMessage]
    rw [hc]
    cases h : (sid == sid2) <;> simp [ServerEvent.isNewMessage]
  refine ⟨?_, ?_, ?_⟩
  · intro sid2 u2 hmem hne2 hz2
    rw [hcount sid2]
    rw [countP_key m hnd sid2 u2 hmem (fun e => e.2.geohash == some zone && e.1 != sid)]
    have hr : (u2.geohash == some zone && sid2 != sid) = true := by
      simp [hz2, hne2]
    rw [hr]
    have hz : (sid == sid2) = false := by
      simp only [beq_eq_false_iff_ne]
      exact fun h => hne2 h.symm
    simp [hz]
  · rw [hcount sid]
    have hz : m.countP (fun e => e.1 == sid && (e.2.geohash == some zone && e.1 != sid))
        = 0 := by
      rw [List.countP_eq_zero]
      intro e _
      by_cases h : e.1 = sid <;> simp [h]
    rw [hz]
    simp
  · intro sid2 u2 hmem hz2
    have hnsid : sid2 ≠ sid := by
      intro h
      subst h
      have heq : u2 = user := nodupKeys_eq m hnd hmem (mapGet_mem m sid2 user hget)
      rw [heq] at hz2
      exact hz2 hzone
    rw [hcount sid2]
    rw [countP_key m hnd sid2 u2 hmem (fun e => e.2.geohash == some zone && e.1 != sid)]
    have hr : (u2.geohash == some zone && sid2 != sid) = false := by
      simp [hz2]
    rw [hr]
    have hz : (sid == sid2) = false := by
      simp only [beq_eq_false_iff_ne]
      exact fun h => hnsid h.symm
    simp [hz]

theorem sendMessage_delivery_witness :
    countEventsTo (mC2.map Prod.fst) "B" (handleSendMessage idFilter mC2 "A" "hi" 3).2
        ServerEvent.isNewMessage = 1
    ∧ countEventsTo (mC2.map Prod.fst) "A" (handleSendMessage idFilter mC2 "A" "hi" 3).2
        ServerEvent.isNewMessage = 1
    ∧ countEventsTo (mC2.map Prod.fst) "C" (handleSendMessage idFilter mC2 "A" "hi" 3).2
        ServerEvent.isNewMessage = 0 := by
  have h := sendMessage_delivery idFilter mC2 "A" "hi" 3 uAlice zone0
    (by decide) (by decide) (by decide) (by decide) (by decide)
  exact ⟨h.1 "B" uBob (by decide) (by decide) (by decide), h.2.1,
    h.2.2 "C" uCarol (by decide) (by decide)⟩

/-- C6: `send-message` checks its preconditions in a fixed order with the
first failure winning: no session or no zone gives the not-located error
(regardless of speed or message), then the speed lock, then message
validation; a fast session that never shared a location is told to share its
location, not that it is speeding. -/
theorem sendMessage_precondition_order (fc : String → Option String) (m : UserMap)
    (sid : SocketId) (msg : String) (now : ℕ) :
    ((mapGet m sid = none ∨ (∃ user, mapGet m sid = some user ∧ user.geohash = none)) →
      handleSendMessage fc m sid msg now
        = (m, [Delivery.toSocket sid
            (ServerEvent.errorEvent "You must share your location first")]))
    ∧ (∀ user zone, mapGet m sid = some user → user.geohash = some zone →
        user.speed > SPEED_LOCK_THRESHOLD →
      handleSendMessage fc m sid msg now
        = (m, [Delivery.toSocket sid (ServerEvent.errorEvent
            ("Messaging disabled while driving (speed: "
              ++ toFixed1 user.speed ++ " mph)"))]))
    ∧ (∀ user zone, mapGet m sid = some user → user.geohash = some zone →
        ¬ user.speed > SPEED_LOCK_THRESHOLD → (jsTrim msg).length = 0 →
      handleSendMessage fc m sid msg now
        = (m, [Delivery.toSocket sid (ServerEvent.errorEvent "Invalid message")])) := by
  refine ⟨?_, ?_, ?_⟩
  · rintro (h | ⟨user, hget, hzone⟩)
    · unfold handleSendMessage
      rw [h]
    · unfold handleSendMessage
      simp only [hget, hzone]
  · intro user zone hget hzone hspeed
    unfold handleSendMessage
    simp only [hget, hzone]
    rw [if_pos hspeed]
  · intro user zone hget hzone hspeed hlen
    unfold handleSendMessage
    simp only [hget, hzone]
    rw [if_neg hspeed]
    have hb : ((jsTrim msg).length == 0) = true := by simpa using hlen
    simp [hb]

theorem sendMessage_precondition_order_witness :
    uFast.speed > SPEED_LOCK_THRESHOLD
    ∧ handleSendMessage idFilter mFast "A" "hi" 3
      = (mFast, [Delivery.toSocket "A"
          (ServerEvent.errorEvent "You must share your location first")]) := by
  constructor
  · decide
  · exact (sendMessage_precondition_order idFilter mFast "A" "hi" 3).1
      (Or.inr ⟨uFast, by decide, by decide⟩)

/-- C7: the speed lock is a strict gate at the threshold: a located session
whose stored speed is exactly 10 may send (the full delivery list is
produced), while one whose stored speed is 10.1 is rejected with the
speed-lock error whose text carries the current speed, "10.1". -/
theorem speedLock_boundary (fc : String → Option String) (m : UserMap)
    (sid : SocketId) (msg : String) (now : ℕ) (user : User) (zone : String)
    (hget : mapGet m sid = some user) (hzone : user.geohash = some zone)
    (hmsg : (jsTrim msg).length ≠ 0) :
    (user.speed = 10 →
      (handleSendMessage fc m sid msg now).2
        = (m.filter (fun e => e.2.geohash == some zone && e.1 != sid)).map
            (fun e => Delivery.toSocket e.1 (ServerEvent.newMessage
              ⟨sid, user.nickname,
               if msg.length > 5 then (fc msg).getD msg else msg, now, zone⟩))
          ++ [Delivery.toSocket sid (ServerEvent.newMessage
              ⟨sid, user.nickname,
               if msg.length > 5 then (fc msg).getD msg else msg, now, zone⟩)])
    ∧ (user.speed = 101/10 →
      handleSendMessage fc m sid msg now
        = (m, [Delivery.toSocket sid (ServerEvent.errorEvent
            "Messaging disabled while driving (speed: 10.1 mph)")])) := by
  constructor
  · intro hs
    have hspeed : ¬ user.speed > SPEED_LOCK_THRESHOLD := by
      rw [hs]
      decide
    rw [handleSendMessage_success fc m sid msg now user zone hget hzone hspeed hmsg]
  · intro hs
    have hspeed : user.speed > SPEED_LOCK_THRESHOLD := by
      rw [hs]
      decide
    have h := (sendMessage_precondition_order fc m sid msg now).2.1
      user zone hget hzone hspeed
    rw [h, hs]
    have hfix : toFixed1 (101/10) = "10.1" := by decide
    rw [hfix]
    have happ : ("Messaging disabled while driving (speed: " ++ "10.1" ++ " mph)" : String)
        = "Messaging disabled while driving (speed: 10.1 mph)" := by decide
    rw [happ]

theorem speedLock_boundary_witness :
    (handleSendMessage idFilter mSpeed10 "A" "hi" 3).2
      = [Delivery.toSocket "B" (ServerEvent.newMessage ⟨"A", "Ten", "hi", 3, zone0⟩),
         Delivery.toSocket "A" (ServerEvent.newMessage ⟨"A", "Ten", "hi", 3, zone0⟩)]
    ∧ handleSendMessage idFilter mSpeed101 "A" "hi" 3
      = (mSpeed101, [Delivery.toSocket "A" (ServerEvent.errorEvent
          "Messaging disabled while driving (speed: 10.1 mph)")]) := by
  constructor
  · exact ((speedLock_boundary idFilter mSpeed10 "A" "hi" 3 uTen zone0
      (by decide) (by decide) (by decide)).1 (by decide)).trans (by decide)
  · exact (speedLock_boundary idFilter mSpeed101 "A" "hi" 3 uTenPointOne zone0
      (by decide) (by decide) (by decide)).2 (by decide)

theorem nearbySnapshot_socketIds (m : UserMap) (zone : String) :
    (nearbySnapshot m zone).map NearbyUser.socketId
      = (m.filter (fun e => e.2.geohash == some zone && e.2.lat != none)).map
          Prod.fst := by
  rw [nearbySnapshot, List.map_map]
  rfl

theorem count_map_fst_filter (m : UserMap) (q : SocketId × User → Bool)
    (k : SocketId) :
    ((m.filter q).map Prod.fst).count k
      = m.countP (fun e => e.1 == k && q e) := by
  induction m with
  | nil => rfl
  | cons e t ih =>
    rw [List.filter_cons, List.countP_cons]
    by_cases h : q e
    · cases hk : (e.1 == k) <;>
        simp [h, hk, List.count_cons, ih]
    · simp [h, ih]

theorem mem_nearbySnapshot_ids (m : UserMap) (z : String) (sid : SocketId)
    (u : User) (hmem : (sid, u) ∈ m) (hz : u.geohash = some z)
    (hlat : u.lat ≠ none) :
    sid ∈ (nearbySnapshot m z).map NearbyUser.socketId := by
  rw [nearbySnapshot_socketIds]
  exact List.mem_map_of_mem Prod.fst
    (List.mem_filter.mpr ⟨hmem, by simp [hz, hlat]⟩)

theorem filter_key_and (m : UserMap) (hnd : (m.map Prod.fst).Nodup)
    (k : SocketId) (u : User) (hmem : (k, u) ∈ m)
    (r : SocketId × User → Bool) (hr : r (k, u) = true) :
    m.filter (fun e => e.1 == k && r e) = [(k, u)] := by
  induction m with
  | nil => cases hmem
  | cons e t ih =>
    rw [List.map_cons, List.nodup_cons] at hnd
    rw [List.filter_cons]
    rcases List.mem_cons.mp hmem with heq | hmem2
    · cases heq
      rw [if_pos (by simp [hr])]
      have hz : t.filter (fun e => e.1 == k && r e) = [] := by
        rw [List.filter_eq_nil_iff]
        intro a ha
        have hak : a.1 ≠ k := by
          intro hak
          apply hnd.1
          have hmm : a.1 ∈ t.map Prod.fst := List.mem_map_of_mem Prod.fst ha
          simpa [hak] using hmm
        simp [hak]
      rw [hz]
    · have hek : e.1 ≠ k := by
        intro hek
        apply hnd.1
        have hmm : (k, u).1 ∈ t.map Prod.fst := List.mem_map_of_mem Prod.fst hmem2
        simpa [hek] using hmm
      rw [if_neg (by simp [hek])]
      exact ih hnd.2 hmem2

/-- C8: the snapshot of zone Z lists exactly the sessions holding Z that have
a position (each exactly once), in store order, which is insertion order of
session creation; every member of Z receives exactly this snapshot; two
sessions that report identical coordinates appear in each other's snapshot,
and a session never appears in the snapshot of a zone it does not hold. -/
theorem nearbySnapshot_spec (m : UserMap) (zone : String)
    (hnd : (m.map Prod.fst).Nodup) :
    (∀ sid u, (sid, u) ∈ m → u.geohash = some zone → u.lat ≠ none →
        ((nearbySnapshot m zone).map NearbyUser.socketId).count sid = 1)
    ∧ (∀ sid u, (sid, u) ∈ m → u.geohash ≠ some zone →
        ((nearbySnapshot m zone).map NearbyUser.socketId).count sid = 0)
    ∧ ((nearbySnapshot m zone).map NearbyUser.socketId).Sublist (m.map Prod.fst)
    ∧ (∀ sid u, (sid, u) ∈ m → u.geohash = some zone →
        deliveriesTo (m.map Prod.fst) sid (broadcastNearbyUsers m zone)
          = [ServerEvent.nearbyUsers (nearbySnapshot m zone)])
    ∧ (∀ sid1 u1 sid2 u2 lat lng, (sid1, u1) ∈ m → (sid2, u2) ∈ m →
        u1.lat = some lat → u1.lng = some lng →
        u2.lat = some lat → u2.lng = some lng →
        u1.geohash = some (geohashEncode lat lng GEOHASH_PRECISION) →
        u2.geohash = some (geohashEncode lat lng GEOHASH_PRECISION) →
        sid1 ∈ (nearbySnapshot m (geohashEncode lat lng GEOHASH_PRECISION)).map
            NearbyUser.socketId
        ∧ sid2 ∈ (nearbySnapshot m (geohashEncode lat lng GEOHASH_PRECISION)).map
            NearbyUser.socketId) := by
  refine ⟨?_, ?_, ?_, ?_, ?_⟩
  · intro sid u hmem hz hlat
    rw [nearbySnapshot_socketIds, count_map_fst_filter]
    rw [countP_key m hnd sid u hmem
      (fun e => e.2.geohash == some zone && e.2.lat != none)]
    simp [hz, hlat]
  · intro sid u hmem hz
    rw [nearbySnapshot_socketIds, count_map_fst_filter]
    rw [countP_key m hnd sid u hmem
      (fun e => e.2.geohash == some zone && e.2.lat != none)]
    simp [hz]
  · rw [nearbySnapshot_socketIds]
    exact (List.filter_sublist m).map Prod.fst
  · intro sid u hmem hz
    rw [broadcastNearbyUsers, deliveriesTo_toSocketMap, List.filter_filter]
    have hk : m.filter (fun e => e.1 == sid && e.2.geohash == some zone)
        = [(sid, u)] := by
      apply filter_key_and m hnd sid u hmem
      simp [hz]
    rw [hk]
    rfl
  · intro sid1 u1 sid2 u2 lat lng hm1 hm2 hlat1 hlng1 hlat2 hlng2 hz1 hz2
    constructor
    · exact mem_nearbySnapshot_ids m _ sid1 u1 hm1 hz1 (by simp [hlat1])
    · exact mem_nearbySnapshot_ids m _ sid2 u2 hm2 hz2 (by simp [hlat2])

theorem nearbySnapshot_spec_witness :
    ((nearbySnapshot mC2 zone0).map NearbyUser.socketId).count "A" = 1
    ∧ ((nearbySnapshot mC2 zone0).map NearbyUser.socketId).count "B" = 1
    ∧ ((nearbySnapshot mC2 zone0).map NearbyUser.socketId).count "C" = 0
    ∧ deliveriesTo (mC2.map Prod.fst) "B" (broadcastNearbyUsers mC2 zone0)
        = [ServerEvent.nearbyUsers (nearbySnapshot mC2 zone0)]
    ∧ "A" ∈ (nearbySnapshot mC2 (geohashEncode (.num 0) (.num 0)
        GEOHASH_PRECISION)).map NearbyUser.socketId
    ∧ "B" ∈ (nearbySnapshot mC2 (geohashEncode (.num 0) (.num 0)
        GEOHASH_PRECISION)).map NearbyUser.socketId := by
  have h := nearbySnapshot_spec mC2 zone0 (by decide)
  have h5 := h.2.2.2.2 "A" uAlice "B" uBob (.num 0) (.num 0)
    (by decide) (by decide) (by decide) (by decide) (by decide) (by decide)
    (by decide) (by decide)
  exact ⟨h.1 "A" uAlice (by decide) (by decide) (by decide),
    h.1 "B" uBob (by decide) (by decide) (by decide),
    h.2.1 "C" uCarol (by decide) (by decide),
    h.2.2.2.1 "B" uBob (by decide) (by decide),
    h5.1, h5.2⟩

/-- C9 (amended): `join` and `location-update` set the session's `lastSeen`
to the current time, but `send-message` does not modify the store at all —
in particular it does not refresh `lastSeen` — so a session that only keeps
sending messages is evicted by the sweep once the timeout has elapsed since
its last join or location update. -/
theorem lastSeen_refresh (fc : String → Option String) (m : UserMap)
    (sid : SocketId) (now : ℕ) :
    (∀ nickname, (jsTrim nickname).length ≠ 0 →
        (mapGet (handleJoin m sid nickname now).1 sid).map User.timestamp
          = some now)
    ∧ (∀ user lat lng speed, mapGet m sid = some user →
        validCoordinates lat lng = true →
        (mapGet (handleLocationUpdate m sid lat lng speed now).1 sid).map
          User.timestamp = some now)
    ∧ (∀ msg, (handleSendMessage fc m sid msg now).1 = m)
    ∧ (∀ user now2, (sid, user) ∈ m → now2 - user.timestamp > COORDINATE_TIMEOUT →
        (sid, user) ∉ (evictionSweep m now2).1) := by
  refine ⟨?_, ?_, ?_, ?_⟩
  · intro nickname h
    have hb : ((jsTrim nickname).length == 0) = false := by simpa using h
    unfold handleJoin
    simp [hb, mapGet_mapSet]
  · intro user lat lng speed hget hvalid
    rw [handleLocationUpdate_success m sid lat lng speed now user hget hvalid]
    simp [mapGet_mapSet]
  · intro msg
    unfold handleSendMessage
    cases hg : mapGet m sid with
    | none => rfl
    | some user =>
      cases hz : user.geohash with
      | none => simp [hz]
      | some zone =>
        by_cases h1 : user.speed > SPEED_LOCK_THRESHOLD
        · simp [hz, h1]
        · by_cases h2 : ((jsTrim msg).length == 0)
          · simp [hz, h1, h2]
          · simp [hz, h1, h2]
  · intro user now2 hmem hstale
    rw [evictionSweep_fst]
    simp [List.mem_filter, hstale]

theorem lastSeen_refresh_witness :
    (mapGet (handleJoin [] "A" "Al" 4).1 "A").map User.timestamp = some 4
    ∧ (mapGet (handleLocationUpdate mJoined "A" (.num 0) (.num 0) (.num 0) 9).1
        "A").map User.timestamp = some 9
    ∧ (handleSendMessage idFilter mAfterLocate "A" "hi" 20000).1 = mAfterLocate
    ∧ ("A", uStale) ∉ (evictionSweep mSweep 40000).1 := by
  have h1 := (lastSeen_refresh idFilter [] "A" 4).1 "Al" (by decide)
  have h2 := (lastSeen_refresh idFilter mJoined "A" 9).2.1 uJoinedOnly
    (.num 0) (.num 0) (.num 0) (by decide) (by decide)
  have h3 := (lastSeen_refresh idFilter mAfterLocate "A" 20000).2.2.1 "hi"
  have h4 := (lastSeen_refresh idFilter mSweep "A" 0).2.2.2 uStale 40000
    (by decide) (by decide)
  exact ⟨h1, h2, h3, h4⟩

theorem lastSeen_sendMessage_counterexample :
    (handleSendMessage idFilter mAfterLocate "A" "hi" 20000).2.countP
        isErrorDelivery = 0
    ∧ (mapGet mAfterSend "A").map User.timestamp = some 0
    ∧ (evictionSweep mAfterSend 31000).1 = []
    ∧ countEventsTo ["A"] "A" (evictionSweep mAfterSend 31000).2
        (isUserLeftFrom "A") = 1 := by
  refine ⟨by decide, by decide, by decide, by decide⟩

/-- C10: when a location update moves a session from one non-null zone to a
different zone, the `nearby-users` refresh goes only to sessions of the new
zone: every session whose zone after the update differs from the new zone —
one remaining in the old zone, one in an unrelated zone, or one with no zone
at all — receives no `nearby-users` delivery from that operation, while every
session of the new zone receives exactly one. -/
theorem locationUpdate_zone_refresh (m : UserMap) (sid : SocketId)
    (lat lng speed : JSNum) (now : ℕ) (user : User) (prevZone : String)
    (hnd : (m.map Prod.fst).Nodup)
    (hget : mapGet m sid = some user)
    (hvalid : validCoordinates lat lng = true)
    (hprev : user.geohash = some prevZone)
    (hne : prevZone ≠ geohashEncode lat lng GEOHASH_PRECISION) :
    (∀ sid2 u2, (sid2, u2) ∈ (handleLocationUpdate m sid lat lng speed now).1 →
        u2.geohash ≠ some (geohashEncode lat lng GEOHASH_PRECISION) →
        countEventsTo (m.map Prod.fst) sid2
          (handleLocationUpdate m sid lat lng speed now).2
          ServerEvent.isNearbyUsers = 0)
    ∧ (∀ sid2 u2, (sid2, u2) ∈ (handleLocationUpdate m sid lat lng speed now).1 →
        u2.geohash = some (geohashEncode lat lng GEOHASH_PRECISION) →
        countEventsTo (m.map Prod.fst) sid2
          (handleLocationUpdate m sid lat lng speed now).2
          ServerEvent.isNearbyUsers = 1) := by
  have hsucc := handleLocationUpdate_success m sid lat lng speed now user hget hvalid
  have hmem_sid : sid ∈ m.map Prod.fst :=
    List.mem_map_of_mem Prod.fst (mapGet_mem m sid user hget)
  have hnd2 : ((mapSet m sid ⟨user.nickname, some lat, some lng, jsOrZero speed,
      some (geohashEncode lat lng GEOHASH_PRECISION), now⟩).map Prod.fst).Nodup := by
    rw [mapSet_map_fst_of_mem m sid _ hmem_sid]
    exact hnd
  have hfst : (handleLocationUpdate m sid lat lng speed now).1
      = mapSet m sid ⟨user.nickname, some lat, some lng, jsOrZero speed,
          some (geohashEncode lat lng GEOHASH_PRECISION), now⟩ := by
    rw [hsucc]
  have hsnd : (handleLocationUpdate m sid lat lng speed now).2
      = [Delivery.toSocket sid (ServerEvent.zoneChanged
            (geohashEncode lat lng GEOHASH_PRECISION))]
        ++ broadcastNearbyUsers
            (mapSet m sid ⟨user.nickname, some lat, some lng, jsOrZero speed,
              some (geohashEncode lat lng GEOHASH_PRECISION), now⟩)
            (geohashEncode lat lng GEOHASH_PRECISION) := by
    rw [hsucc]
    simp [hprev, hne]
  have hcount : ∀ sid2 : SocketId,
      countEventsTo (m.map Prod.fst) sid2
          (handleLocationUpdate m sid lat lng speed now).2 ServerEvent.isNearbyUsers
        = (mapSet m sid ⟨user.nickname, some lat, some lng, jsOrZero speed,
            some (geohashEncode lat lng GEOHASH_PRECISION), now⟩).countP
            (fun e => e.1 == sid2
              && e.2.geohash == some (geohashEncode lat lng GEOHASH_PRECISION)) := by
    intro sid2
    rw [hsnd, countEventsTo_append, countEventsTo_singleton_toSocket,
      broadcastNearbyUsers, countEventsTo_toSocketMap]
    have hc1 : (if (sid == sid2) then (if ServerEvent.isNearbyUsers
        (ServerEvent.zoneChanged (geohashEncode lat lng GEOHASH_PRECISION))
        then 1 else 0) else 0) = 0 := by
      cases h : (sid == sid2) <;> simp [ServerEvent.isNearbyUsers]
    rw [hc1, List.countP_filter]
    rw [Nat.zero_add]
    apply List.countP_congr
    intro x _
    cases h : (x.1 == sid2) <;> simp [h, ServerEvent.isNearbyUsers]
  constructor
  · intro sid2 u2 hmem hz
    rw [hfst] at hmem
    rw [hcount sid2]
    rw [countP_key _ hnd2 sid2 u2 hmem
      (fun e => e.2.geohash == some (geohashEncode lat lng GEOHASH_PRECISION))]
    have : (u2.geohash == some (geohashEncode lat lng GEOHASH_PRECISION)) = false := by
      simp [hz]
    rw [this]
    rfl
  · intro sid2 u2 hmem hz
    rw [hfst] at hmem
    rw [hcount sid2]
    rw [countP_key _ hnd2 sid2 u2 hmem
      (fun e => e.2.geohash == some (geohashEncode lat lng GEOHASH_PRECISION))]
    simp [hz]

theorem locationUpdate_zone_refresh_witness :
    countEventsTo (mC10.map Prod.fst) "B"
      (handleLocationUpdate mC10 "A" (.num 0) (.num 0) (.num 0) 1).2
      ServerEvent.isNearbyUsers = 0
    ∧ countEventsTo (mC10.map Prod.fst) "D"
      (handleLocationUpdate mC10 "A" (.num 0) (.num 0) (.num 0) 1).2
      ServerEvent.isNearbyUsers = 0
    ∧ countEventsTo (mC10.map Prod.fst) "E"
      (handleLocationUpdate mC10 "A" (.num 0) (.num 0) (.num 0) 1).2
      ServerEvent.isNearbyUsers = 0
    ∧ countEventsTo (mC10.map Prod.fst) "C"
      (handleLocationUpdate mC10 "A" (.num 0) (.num 0) (.num 0) 1).2
      ServerEvent.isNearbyUsers = 1 := by
  have h := locationUpdate_zone_refresh mC10 "A" (.num 0) (.num 0) (.num 0) 1
    uMoveA "aaaaaa" (by decide) (by decide) (by decide) (by decide) (by decide)
  exact ⟨h.1 "B" uStayB (by decide) (by decide),
    h.1 "D" uCarol (by decide) (by decide),
    h.1 "E" uFast (by decide) (by decide),
    h.2 "C" uAlice (by decide) (by decide)⟩

end TeslaProximityChat
